/-
Verification development for the `point_cloud::ClusterTracker` nodelet
(src/src/cluster_tracker.cpp, src/include/point_cloud/cluster_tracker.h).

Embedding conventions:
* `float`/`double` arithmetic is modelled over `ℚ`.  Decimal literals of the
  source (0.01, 0.1) become exact rationals; the claims under study depend on
  the algebraic shape of the computations, not on rounding.
* The source compares Euclidean distances (`sqrt` of a sum of squares) only
  with `<`; since `sqrt` is strictly monotone on nonnegative reals, the model
  stores squared distances.  The sentinel `std::numeric_limits<float>::max()`
  — strictly larger than every genuine distance — is modelled as `⊤` in
  `WithTop ℚ`.
* Out-of-bounds accesses on `std::vector` / raw arrays (undefined behaviour
  in the source) are modelled as failure: fallible operations return
  `Option`, and a failure aborts the whole cycle (`none`).
* `cv::KalmanFilter` state and its `predict`/`correct` steps are embedded
  after OpenCV's reference implementation (modules/video/src/kalman.cpp):
  `predict` computes `statePre = A·statePost`,
  `errorCovPre = A·errorCovPost·Aᵀ + Q` and then copies the a-priori values
  into the a-posteriori ones; `correct` computes the gain
  `K = errorCovPre·Hᵀ·(H·errorCovPre·Hᵀ + R)⁻¹`,
  `statePost = statePre + K·(z − H·statePre)` and
  `errorCovPost = errorCovPre − K·H·errorCovPre`.  The constructor zeroes the
  state vectors and both covariance matrices.  Inversion of a singular
  innovation covariance (OpenCV falls back to an SVD pseudo-inverse) is
  modelled as failure.
-/
import Mathlib

namespace point_cloud

/-! ### Generic list helpers

`std::vector::operator[]` performs no bounds check; an out-of-range index is
undefined behaviour.  A signed index is converted to `size_t`, so any negative
index is out of range.  The helpers below model such accesses fallibly. -/

/-- Read `l[i]` for a C++ `int` index `i`: negative indices convert to huge
`size_t` values and are out of range. -/
def getEntryI {α : Type} (l : List α) (i : Int) : Option α :=
  if 0 ≤ i then l[i.toNat]? else none

/-- Write `l[i] = a` for a C++ `int` index `i`, failing out of range. -/
def setEntryI {α : Type} (l : List α) (i : Int) (a : α) : Option (List α) :=
  if 0 ≤ i ∧ i.toNat < l.length then some (l.set i.toNat a) else none

theorem setEntryI_some {α : Type} {l l₂ : List α} {i : Int} {a : α}
    (h : setEntryI l i a = some l₂) :
    0 ≤ i ∧ i.toNat < l.length ∧ l₂ = l.set i.toNat a := by
  unfold setEntryI at h
  split at h
  · exact ⟨by tauto, by tauto, by cases h; rfl⟩
  · cases h

theorem setEntryI_of_bounds {α : Type} {l : List α} {i : Int} {a : α}
    (h0 : 0 ≤ i) (h1 : i.toNat < l.length) :
    setEntryI l i a = some (l.set i.toNat a) := by
  unfold setEntryI
  rw [if_pos ⟨h0, h1⟩]

theorem getElem?_set_self {α : Type} :
    ∀ (l : List α) (i : Nat) (a : α), i < l.length → (l.set i a)[i]? = some a := by
  intro l
  induction l with
  | nil => intro i a h; simp at h
  | cons x xs ih =>
    intro i a h
    cases i with
    | zero => simp
    | succ n =>
      simp only [List.set, List.getElem?_cons_succ]
      exact ih n a (by simpa using h)

theorem getElem?_set_other {α : Type} :
    ∀ (l : List α) (i j : Nat) (a : α), i ≠ j → (l.set i a)[j]? = l[j]? := by
  intro l
  induction l with
  | nil => intro i j a _; simp
  | cons x xs ih =>
    intro i j a hne
    cases i with
    | zero =>
      cases j with
      | zero => exact absurd rfl hne
      | succ m => simp
    | succ n =>
      cases j with
      | zero => simp
      | succ m =>
        simp only [List.set, List.getElem?_cons_succ]
        exact ih n m a (fun h => hne (by rw [h]))

theorem mem_of_mem_set {α : Type} :
    ∀ (l : List α) (i : Nat) (a b : α), b ∈ l.set i a → b ∈ l ∨ b = a := by
  intro l
  induction l with
  | nil => intro i a b h; simp at h
  | cons x xs ih =>
    intro i a b h
    cases i with
    | zero =>
      rcases List.mem_cons.mp h with h1 | h1
      · exact Or.inr h1
      · exact Or.inl (List.mem_cons_of_mem _ h1)
    | succ n =>
      rcases List.mem_cons.mp h with h1 | h1
      · exact Or.inl (h1 ▸ List.mem_cons_self _ _)
      · rcases ih n a b h1 with h2 | h2
        · exact Or.inl (List.mem_cons_of_mem _ h2)
        · exact Or.inr h2

theorem mem_of_getElem? {α : Type} :
    ∀ (l : List α) (i : Nat) (a : α), l[i]? = some a → a ∈ l := by
  intro l
  induction l with
  | nil => intro i a h; simp at h
  | cons x xs ih =>
    intro i a h
    cases i with
    | zero =>
      simp only [List.getElem?_cons_zero, Option.some.injEq] at h
      exact h ▸ List.mem_cons_self _ _
    | succ n =>
      simp only [List.getElem?_cons_succ] at h
      exact List.mem_cons_of_mem _ (ih n a h)

theorem getElem?_replicate_of_lt {α : Type} {a : α} :
    ∀ {n i : Nat}, i < n → (List.replicate n a)[i]? = some a := by
  intro n
  induction n with
  | zero => intro i h; simp at h
  | succ m ih =>
    intro i h
    cases i with
    | zero => simp [List.replicate]
    | succ k =>
      simp only [List.replicate, List.getElem?_cons_succ]
      exact ih (by omega)

/-! ### Points and distances (cluster_tracker.cpp lines 83-86) -/

/-- `geometry_msgs::Point`. -/
structure Point where
  x : ℚ
  y : ℚ
  z : ℚ
deriving DecidableEq

/-- Square of `ClusterTracker::euclidian_dst` (line 85).  The source returns
`sqrt` of this value; all uses compare distances with `<`, and `sqrt` is
strictly monotone, so the squared value is an order-faithful model. -/
def euclidian_dst_sq (p1 p2 : Point) : ℚ :=
  (p1.x - p2.x) * (p1.x - p2.x) + (p1.y - p2.y) * (p1.y - p2.y) +
    (p1.z - p2.z) * (p1.z - p2.z)

/-- A distance-matrix entry: a genuine squared distance, or the sentinel
`std::numeric_limits<float>::max()` modelled as `⊤`. -/
abbrev DistVal := WithTop ℚ

/-! ### findMinIDX (cluster_tracker.cpp lines 88-103)

The inner loop bound is `distMat.at(0).size()` — the length of row 0, not of
the row being scanned.  Rows of other lengths exist after the erase step of
`match_objID`, so the element read `distMat[pp][c]` can be out of range. -/

/-- Cells `(pp, c)` visited by the nested loops, in row-major order; the
column bound is row 0's length. -/
def allCells (nrows bound : Nat) : List (Nat × Nat) :=
  (List.range nrows).flatMap (fun pp => (List.range bound).map (fun c => (pp, c)))

/-- One pass of the scan in `findMinIDX`: fold over the visited cells,
keeping the least element seen so far (strictly smaller than the incumbent,
so the first minimum in row-major order wins).  Reading a cell outside its
row is a failure. -/
def scanCells (distMat : List (List DistVal)) :
    List (Nat × Nat) → ((Int × Int) × DistVal) → Option ((Int × Int) × DistVal)
  | [], acc => some acc
  | (pp, c) :: rest, acc =>
    match distMat[pp]? with
    | none => none
    | some row =>
      match row[c]? with
      | none => none
      | some v =>
        scanCells distMat rest
          (if v < acc.2 then ((Int.ofNat pp, Int.ofNat c), v) else acc)

/-- `ClusterTracker::findMinIDX`.  Returns `(-1, -1)` when no entry is below
the sentinel (also when the matrix has no rows: the outer loop never runs, so
`distMat.at(0)` is never evaluated). -/
def findMinIDX (distMat : List (List DistVal)) : Option (Int × Int) :=
  match distMat with
  | [] => some (-1, -1)
  | r0 :: _ =>
    match scanCells distMat (allCells distMat.length r0.length) ((-1, -1), ⊤) with
    | none => none
    | some acc => some acc.1

/-! ### match_objID (cluster_tracker.cpp lines 216-249) -/

/-- Record a match (lines 238-242): only when `minIdx.first != -1` are
`vec[minIdx.first]` and `used[minIdx.second]` written. -/
def assocRecord (vec : List Int) (used : List Bool) (ij : Int × Int) :
    Option (List Int × List Bool) :=
  if ij.1 ≠ -1 then
    match setEntryI vec ij.1 ij.2, setEntryI used ij.2 true with
    | some v, some u => some (v, u)
    | _, _ => none
  else some (vec, used)

/-- The column-erase loop (lines 244-245): write the sentinel at index
`minIdx.second` of every row.  Rows shortened to 6 entries by a previous row
erase make this write out of range when `minIdx.second ≥ 6`. -/
def eraseCol : List (List DistVal) → Int → Option (List (List DistVal))
  | [], _ => some []
  | r :: rs, j =>
    match setEntryI r j (⊤ : DistVal) with
    | none => none
    | some r2 =>
      match eraseCol rs j with
      | none => none
      | some rs2 => some (r2 :: rs2)

/-- The erase step (lines 243-245).  It runs OUTSIDE the `-1` guard: the row
assignment `distMatrix[minIdx.first] = std::vector<float>(6, max)` replaces
the selected row by SIX sentinel entries regardless of the column count, and
with `minIdx == (-1, -1)` it indexes the matrix at `(size_t)(-1)`.  The
column loop then writes `distMatrix[r][minIdx.second]` in every row. -/
def assocErase (distMat : List (List DistVal)) (ij : Int × Int) :
    Option (List (List DistVal)) :=
  match setEntryI distMat ij.1 (List.replicate 6 (⊤ : DistVal)) with
  | none => none
  | some m1 => eraseCol m1 ij.2

/-- The matching loop of `match_objID` (lines 235-246), iterated
`k_filters_.size()` times. -/
def assocLoop :
    Nat → List (List DistVal) → List Int → List Bool → Option (List Int × List Bool)
  | 0, _, vec, used => some (vec, used)
  | Nat.succ fuel, distMat, vec, used =>
    match findMinIDX distMat with
    | none => none
    | some ij =>
      match assocRecord vec used ij with
      | none => none
      | some vu =>
        match assocErase distMat ij with
        | none => none
        | some m2 => assocLoop fuel m2 vu.1 vu.2

/-- `ClusterTracker::match_objID`.  `kCount` is `k_filters_.size()` (the loop
bound of line 235); in `KFTrack` it always equals `pred.length`.  Returns the
assignment vector together with the `used` out-parameter. -/
def match_objID (kCount : Nat) (pred cCentres : List Point) (used0 : List Bool) :
    Option (List Int × List Bool) :=
  assocLoop kCount
    (pred.map (fun pp => cCentres.map (fun c => ((euclidian_dst_sq pp c : ℚ) : DistVal))))
    (List.replicate pred.length (-1)) used0

/-! ### cv::KalmanFilter embedding (stateDim 4, measDim 2)

Fixed-size linear algebra over `ℚ`, written with explicit four- and two-term
sums so that every operation is directly executable and decidable. -/

abbrev Vec4 := Fin 4 → ℚ
abbrev Vec2 := Fin 2 → ℚ
abbrev Mat4 := Fin 4 → Fin 4 → ℚ
abbrev Mat2 := Fin 2 → Fin 2 → ℚ
abbrev Mat24 := Fin 2 → Fin 4 → ℚ
abbrev Mat42 := Fin 4 → Fin 2 → ℚ

/-- Build a 4-vector from its entries.  (A plain `Nat`-match so that kernel
reduction — and hence `decide`/`rfl` on concrete states — works smoothly.) -/
def vec4 (a b c d : ℚ) : Vec4 := fun i =>
  match i.val with
  | 0 => a
  | 1 => b
  | 2 => c
  | _ => d

/-- Build a 2-vector from its entries. -/
def vec2 (a b : ℚ) : Vec2 := fun i =>
  match i.val with
  | 0 => a
  | _ => b

/-- Build a 4×4 matrix from its rows. -/
def mat4 (r0 r1 r2 r3 : Vec4) : Mat4 := fun i =>
  match i.val with
  | 0 => r0
  | 1 => r1
  | 2 => r2
  | _ => r3

/-- Build a 2×4 matrix from its rows. -/
def mat24 (r0 r1 : Vec4) : Mat24 := fun i =>
  match i.val with
  | 0 => r0
  | _ => r1

/-- Build a 2×2 matrix from its rows. -/
def mat2 (r0 r1 : Vec2) : Mat2 := fun i =>
  match i.val with
  | 0 => r0
  | _ => r1

theorem vec4_at0 (a b c d : ℚ) : vec4 a b c d 0 = a := rfl
theorem vec4_at1 (a b c d : ℚ) : vec4 a b c d 1 = b := rfl
theorem vec4_at2 (a b c d : ℚ) : vec4 a b c d 2 = c := rfl
theorem vec4_at3 (a b c d : ℚ) : vec4 a b c d 3 = d := rfl
theorem vec2_at0 (a b : ℚ) : vec2 a b 0 = a := rfl
theorem vec2_at1 (a b : ℚ) : vec2 a b 1 = b := rfl

def mul44 (a b : Mat4) : Mat4 := fun i j =>
  a i 0 * b 0 j + a i 1 * b 1 j + a i 2 * b 2 j + a i 3 * b 3 j

def mul44v (m : Mat4) (v : Vec4) : Vec4 := fun i =>
  m i 0 * v 0 + m i 1 * v 1 + m i 2 * v 2 + m i 3 * v 3

def add44 (a b : Mat4) : Mat4 := fun i j => a i j + b i j

def sub44 (a b : Mat4) : Mat4 := fun i j => a i j - b i j

def transp44 (m : Mat4) : Mat4 := fun i j => m j i

def mul24x44 (a : Mat24) (b : Mat4) : Mat24 := fun i j =>
  a i 0 * b 0 j + a i 1 * b 1 j + a i 2 * b 2 j + a i 3 * b 3 j

def mul24x42 (a : Mat24) (b : Mat42) : Mat2 := fun i j =>
  a i 0 * b 0 j + a i 1 * b 1 j + a i 2 * b 2 j + a i 3 * b 3 j

def mul22x24 (a : Mat2) (b : Mat24) : Mat24 := fun i j =>
  a i 0 * b 0 j + a i 1 * b 1 j

def mul42x24 (a : Mat42) (b : Mat24) : Mat4 := fun i j =>
  a i 0 * b 0 j + a i 1 * b 1 j

def mul42v (m : Mat42) (v : Vec2) : Vec4 := fun i =>
  m i 0 * v 0 + m i 1 * v 1

def mul24v (m : Mat24) (v : Vec4) : Vec2 := fun i =>
  m i 0 * v 0 + m i 1 * v 1 + m i 2 * v 2 + m i 3 * v 3

def add22 (a b : Mat2) : Mat2 := fun i j => a i j + b i j

def addv4 (a b : Vec4) : Vec4 := fun i => a i + b i

def subv2 (a b : Vec2) : Vec2 := fun i => a i - b i

def transp24 (m : Mat24) : Mat42 := fun i j => m j i

/-- 2×2 inverse by adjugate over the determinant.  A singular matrix (OpenCV
would substitute an SVD pseudo-inverse) is modelled as failure. -/
def inv22 (m : Mat2) : Option Mat2 :=
  let d := m 0 0 * m 1 1 - m 0 1 * m 1 0
  if d = 0 then none
  else some (mat2 (vec2 (m 1 1 / d) (-(m 0 1) / d)) (vec2 (-(m 1 0) / d) (m 0 0 / d)))

/-! ### Filter construction (cluster_tracker.cpp lines 65-81)

`_init_KFilters` gives EVERY filter the same configuration:
`transitionMatrix = (dx,0,1,0; 0,dy,0,1; 0,0,dvx,0; 0,0,0,dvy)` with
`dx = dy = 1` and `dvx = dvy = 0.01` — note the velocity diagonal entries are
`0.01`, not 1 — plus `measurementMatrix = I₂ₓ₄`,
`processNoiseCov = 0.01·I₄` (`sigmaP`) and `measurementNoiseCov = 0.1·I₂`
(`sigmaQ`).  These matrices are fixed at construction and shared verbatim by
all filters, so they are global constants of the model. -/

def transitionMatrix : Mat4 :=
  mat4 (vec4 1 0 1 0) (vec4 0 1 0 1) (vec4 0 0 (1/100) 0) (vec4 0 0 0 (1/100))

def measurementMatrix : Mat24 := mat24 (vec4 1 0 0 0) (vec4 0 1 0 0)

def processNoiseCov : Mat4 :=
  mat4 (vec4 (1/100) 0 0 0) (vec4 0 (1/100) 0 0) (vec4 0 0 (1/100) 0) (vec4 0 0 0 (1/100))

def measurementNoiseCov : Mat2 := mat2 (vec2 (1/10) 0) (vec2 0 (1/10))

/-- The per-filter mutable state of a `cv::KalmanFilter`. -/
structure KalmanFilter where
  statePre : Vec4
  statePost : Vec4
  errorCovPre : Mat4
  errorCovPost : Mat4

instance : DecidableEq KalmanFilter := fun a b =>
  decidable_of_iff
    (a.statePre = b.statePre ∧ a.statePost = b.statePost ∧
      a.errorCovPre = b.errorCovPre ∧ a.errorCovPost = b.errorCovPost)
    (by cases a; cases b; simp)

/-- A freshly constructed filter: `cv::KalmanFilter::init` zeroes the state
vectors and both covariance matrices. -/
def kfNew : KalmanFilter where
  statePre := fun _ => 0
  statePost := fun _ => 0
  errorCovPre := fun _ _ => 0
  errorCovPost := fun _ _ => 0

/-- `cv::KalmanFilter::predict` (no control): `statePre = A·statePost`,
`errorCovPre = A·errorCovPost·Aᵀ + Q`, then the a-priori values are copied
into the a-posteriori ones so an uncorrected filter coasts. -/
def kfPredict (f : KalmanFilter) : KalmanFilter :=
  let pre := mul44v transitionMatrix f.statePost
  let covPre :=
    add44 (mul44 (mul44 transitionMatrix f.errorCovPost) (transp44 transitionMatrix))
      processNoiseCov
  { statePre := pre, statePost := pre, errorCovPre := covPre, errorCovPost := covPre }

/-- `cv::KalmanFilter::correct`: `temp2 = H·P'`, `temp3 = temp2·Hᵀ + R`,
`gain = (temp3⁻¹·temp2)ᵀ`, `statePost = statePre + gain·(z − H·statePre)`,
`errorCovPost = P' − gain·temp2`. -/
def kfCorrect (f : KalmanFilter) (z : Vec2) : Option KalmanFilter :=
  let temp2 := mul24x44 measurementMatrix f.errorCovPre
  let temp3 := add22 (mul24x42 temp2 (transp24 measurementMatrix)) measurementNoiseCov
  match inv22 temp3 with
  | none => none
  | some t3inv =>
    let gain := transp24 (mul22x24 t3inv temp2)
    let temp5 := subv2 z (mul24v measurementMatrix f.statePre)
    some { f with
      statePost := addv4 f.statePre (mul42v gain temp5)
      errorCovPost := sub44 f.errorCovPre (mul42x24 gain temp2) }

/-- `_init_KFilters` (lines 65-81): append `cnt` freshly constructed filters
to the bank.  Parameters only; callers set initial states afterwards. -/
def _init_KFilters (filters : List KalmanFilter) (cnt : Nat) : List KalmanFilter :=
  filters ++ List.replicate cnt kfNew

/-! ### Tracker state and the KFTrack cycle (cluster_tracker.cpp lines 114-214) -/

/-- `#define filter_prune_interval 20` (cluster_tracker.h line 28). -/
def filter_prune_interval : Nat := 20

/-- The shared mutable members of `ClusterTracker` that the tracking cycle
reads and writes: the filter bank `k_filters_`, the assignment `objID` and
the staleness counter `kf_prune_ctr_`. -/
structure TrackerState where
  k_filters_ : List KalmanFilter
  objID : List Int
  kf_prune_ctr_ : Nat
deriving DecidableEq

/-- The prediction handed to the associator (lines 122-126): `pt.x`, `pt.y`
from state components 0 and 1, and `pt.z` from state component 2 — which in
the `[x, y, v_x, v_y]` convention is the x-velocity, not a height. -/
def predictedPointOf (f : KalmanFilter) : Point :=
  ⟨f.statePre 0, f.statePre 1, f.statePre 2⟩

/-- Decode the `Float32MultiArray` into points, three floats at a time
(lines 135-142).  The iterator strides by 3, so data whose length is not a
multiple of 3 walks past the end: failure. -/
def chunk3 : List ℚ → Option (List Point)
  | [] => some []
  | x :: y :: z :: rest =>
    match chunk3 rest with
    | none => none
    | some pts => some (⟨x, y, z⟩ :: pts)
  | _ => none

/-- Overwrite `statePre` of `filters[idx]` with position `p` and zero
velocity (the four writes of lines 162-165 / 392-395); `statePost` and the
covariances are untouched.  Out-of-range `idx` is failure. -/
def setFilterSeed (filters : List KalmanFilter) (idx : Nat) (p : ℚ × ℚ) :
    Option (List KalmanFilter) :=
  if h : idx < filters.length then
    some (filters.set idx { filters.get ⟨idx, h⟩ with statePre := vec4 p.1 p.2 0 0 })
  else none

/-- The new-cluster seeding loop of `KFTrack` (lines 158-169): for each
observation index `i`, if `cluster_used[i]` is false the filter at index
`i + diff - skipped` gets its `statePre` seeded from `cCentres[i]`, otherwise
`skipped` is incremented.  (The C++ initialisation of `cluster_used` iterates
over a BY-VALUE copy of each element, so the array formally stays
indeterminate; the model adopts the intended all-false initialisation, which
`match_objID` then updates.  No claim settled here depends on that choice.) -/
def createSeedLoop (used : List Bool) (diff : Nat) :
    List KalmanFilter → List Point → Nat → Nat → Option (List KalmanFilter)
  | filters, [], _, _ => some filters
  | filters, c :: rest, i, skipped =>
    match used[i]? with
    | none => none
    | some u =>
      if u then createSeedLoop used diff filters rest (i + 1) (skipped + 1)
      else
        match setFilterSeed filters (i + diff - skipped) (c.x, c.y) with
        | none => none
        | some fs => createSeedLoop used diff fs rest (i + 1) skipped

/-- The filter-pruning loop of `KFTrack` (lines 175-185): delete every filter
whose `objID` entry is `-1` and erase that entry, keeping the two sequences
aligned.  (Called with `k_filters_` and `objID` of equal length.) -/
def pruneStep (filters : List KalmanFilter) (objids : List Int) :
    List KalmanFilter × List Int :=
  (((filters.zip objids).filter (fun p => p.2 ≠ -1)).map Prod.fst,
    objids.filter (fun o => o ≠ -1))

/-- The CORRECT phase (lines 207-213): for slot `i`, read
`cCentres[objCopy[i]]` — an out-of-range read when the assignment is the
sentinel `-1` — then call `correct` with `(x, y)` unless either coordinate
is zero. -/
def correctLoop (cCentres : List Point) :
    List KalmanFilter → List Int → Nat → Option (List KalmanFilter)
  | filters, [], _ => some filters
  | filters, j :: rest, i =>
    match getEntryI cCentres j with
    | none => none
    | some c =>
      if c.x = 0 ∨ c.y = 0 then correctLoop cCentres filters rest (i + 1)
      else
        match filters[i]? with
        | none => none
        | some f =>
          match kfCorrect f (vec2 c.x c.y) with
          | none => none
          | some fc => correctLoop cCentres (filters.set i fc) rest (i + 1)

/-- `ClusterTracker::KFTrack` (lines 114-214): predict every filter, decode
the centres, associate, then either seed new filters (more observations than
assignment entries) or bump/trigger pruning (fewer), and finally run the
correction loop over a copy of `objID`.  Publishing and visualisation are
external collaborators and not modelled. -/
def KFTrack (st : TrackerState) (ccs : List ℚ) : Option TrackerState :=
  let filters1 := st.k_filters_.map kfPredict
  let predicted_points := filters1.map predictedPointOf
  match chunk3 ccs with
  | none => none
  | some cCentres =>
    match match_objID filters1.length predicted_points cCentres
        (List.replicate cCentres.length false) with
    | none => none
    | some vu =>
      let objID1 := vu.1
      let used1 := vu.2
      let step2 : Option (List KalmanFilter × List Int × Nat) :=
        if objID1.length < cCentres.length then
          let diff := cCentres.length - objID1.length
          match createSeedLoop used1 diff (_init_KFilters filters1 diff) cCentres 0 0 with
          | none => none
          | some fs => some (fs, objID1, st.kf_prune_ctr_)
        else if cCentres.length < objID1.length then
          -- `kf_prune_ctr_++ > filter_prune_interval`: post-increment, the
          -- OLD value is compared; on pruning the counter is reset to 0.
          if st.kf_prune_ctr_ > filter_prune_interval then
            some ((pruneStep filters1 objID1).1, (pruneStep filters1 objID1).2, 0)
          else some (filters1, objID1, st.kf_prune_ctr_ + 1)
        else some (filters1, objID1, st.kf_prune_ctr_)
      match step2 with
      | none => none
      | some fo =>
        match correctLoop cCentres fo.1 fo.2.1 0 with
        | none => none
        | some filters3 => some ⟨filters3, fo.2.1, fo.2.2⟩

/-! ### cloudCallback (cluster_tracker.cpp lines 334-418)

Clustering itself is an external collaborator; the model starts from the
per-cluster point lists and the derived centroids. -/

/-- Centroid of one cluster (lines 360-374): mean of the x and y coordinates,
`z` hard-wired to 0. -/
def computeCentroid (pts : List (ℚ × ℚ)) : Point :=
  ⟨((pts.map Prod.fst).sum) / (pts.length : ℚ),
    ((pts.map Prod.snd).sum) / (pts.length : ℚ), 0⟩

/-- The first-frame seeding loop (lines 386-396): filter `i` gets `statePre`
set to observation `i`'s position with zero velocity. -/
def seedFirstLoop : List KalmanFilter → List Point → Nat → Option (List KalmanFilter)
  | filters, [], _ => some filters
  | filters, c :: rest, i =>
    match setFilterSeed filters i (c.x, c.y) with
    | none => none
    | some fs => seedFirstLoop fs rest (i + 1)

/-- Flatten the centroids into the `Float32MultiArray` handed to `KFTrack`
(lines 401-408). -/
def flatten3 (pts : List Point) : List ℚ :=
  pts.flatMap (fun c => [c.x, c.y, c.z])

/-- The tracking-relevant tail of `cloudCallback` (lines 382-411): on the
very first frame, create one filter per observation and seed it directly,
skipping `KFTrack` entirely; afterwards, hand the flattened centroids to
`KFTrack`.  Returns the new state and the new `first_frame_` flag. -/
def processFrame (st : TrackerState) (first_frame_ : Bool) (cluster_centres : List Point) :
    Option (TrackerState × Bool) :=
  if first_frame_ then
    match seedFirstLoop (_init_KFilters st.k_filters_ cluster_centres.length)
        cluster_centres 0 with
    | none => none
    | some fs => some ({ st with k_filters_ := fs }, false)
  else
    match KFTrack st (flatten3 cluster_centres) with
    | none => none
    | some st2 => some (st2, first_frame_)

/-! ### The transition actually applied by predict -/

theorem mul44v_transition (v : Vec4) :
    mul44v transitionMatrix v = vec4 (v 0 + v 2) (v 1 + v 3) (v 2 / 100) (v 3 / 100) := by
  funext i
  fin_cases i <;>
    · simp only [mul44v, transitionMatrix, mat4, vec4]
      ring

/-- A concrete filter whose velocity components are 1. -/
def fC7ex : KalmanFilter := { kfNew with statePost := vec4 0 0 1 1 }

/-- Claim C7, counterexample: the velocity component is NOT carried over
unchanged by `predict`: for a filter with x-velocity 1, the predicted
x-velocity is 1/100 (the `dvx = 0.01` diagonal entry of the transition
matrix), not 1. -/
theorem predict_velocity_not_constant_cex :
    ¬ ((kfPredict fC7ex).statePre 2 = fC7ex.statePost 2) := by
  with_unfolding_all decide

/-- Claim C7, amended: `predict` advances each position by the corresponding
old velocity, but the velocity components themselves are multiplied by 1/100
(`dvx = dvy = 0.01f` sit on the velocity diagonal of the transition matrix,
which is fixed at construction and identical for every filter, being the
global constant `transitionMatrix` of this model). -/
theorem predict_transition_spec (f : KalmanFilter) :
    (kfPredict f).statePre 0 = f.statePost 0 + f.statePost 2 ∧
    (kfPredict f).statePre 1 = f.statePost 1 + f.statePost 3 ∧
    (kfPredict f).statePre 2 = f.statePost 2 / 100 ∧
    (kfPredict f).statePre 3 = f.statePost 3 / 100 := by
  have h : (kfPredict f).statePre = mul44v transitionMatrix f.statePost := rfl
  rw [h, mul44v_transition]
  exact ⟨rfl, rfl, rfl, rfl⟩

/-! ### Concrete evaluation scenarios -/

/-- Read a state vector off as a tuple of its four components. -/
def stateTuple (v : Vec4) : ℚ × ℚ × ℚ × ℚ := (v 0, v 1, v 2, v 3)

/-- One live filter predicted at (0, 0): the scenario "one track, zero
observations". -/
def stZeroObs : TrackerState := ⟨[kfNew], [], 0⟩

/-- Claim C3: with one track and zero observations, `findMinIDX` returns
`(-1, -1)` on the 1×0 matrix, and `match_objID` then erases
`distMatrix[-1]` — an out-of-range vector access, modelled as failure —
instead of returning the all-sentinel assignment `[-1]`.  The whole `KFTrack`
cycle fails the same way. -/
theorem assoc_exhaustion_oob_eval :
    findMinIDX [[]] = some (-1, -1) ∧
    match_objID 1 [⟨0, 0, 0⟩] [] [] = none ∧
    KFTrack stZeroObs [] = none := by
  refine ⟨by with_unfolding_all decide, by with_unfolding_all decide, ?_⟩
  with_unfolding_all decide

/-- Two live filters whose predictions are (1,1,0) and (2,2,0). -/
def stTwoTracks (ctr : Nat) : TrackerState :=
  ⟨[{ kfNew with statePost := vec4 1 1 0 0 },
    { kfNew with statePost := vec4 2 2 0 0 }], [], ctr⟩

/-- Claim C6: a frame with more tracks (2) than observations (1) fails inside
`match_objID` — after the single column is consumed, the exhausted-matrix
iteration accesses the matrix out of range — BEFORE the staleness counter is
ever read or the prune branch entered.  This holds both for a fresh counter
and for a counter already past the prune interval, so the staleness logic of
lines 172-187 is unreachable through `KFTrack`. -/
theorem overprovisioned_frame_crashes_eval :
    KFTrack (stTwoTracks 0) [1, 1, 0] = none ∧
    KFTrack (stTwoTracks 21) [1, 1, 0] = none := by
  constructor
  · with_unfolding_all decide
  · with_unfolding_all decide

/-- One live filter predicted at (10, 10, 0); the frame brings observations
(10,10,0) and (20,20,0). -/
def stGrowth : TrackerState := ⟨[{ kfNew with statePost := vec4 10 10 0 0 }], [], 0⟩

/-- Claim C1, counterexample: after a cycle with one track and two
observations, the bank holds 2 filters but `objID` still has length 1 — the
assignment sequence is NOT extended for the newly created slot, so
`len(track_slots) == len(assignment_result)` fails after this cycle. -/
theorem kftrack_length_invariant_cex :
    ((KFTrack stGrowth [10, 10, 0, 20, 20, 0]).map
      (fun s => (s.k_filters_.length, s.objID.length))) = some (2, 1) ∧
    (2 : Nat) ≠ 1 := by
  constructor
  · with_unfolding_all decide
  · decide

/-- Two live filters predicted at (50,50,0) and (0,0,0); observations
(0,0,0), (10,10,0), (20,20,0).  The matching assigns track 1 ↦ observation 0
and track 0 ↦ observation 2, leaving observation 1 unmatched. -/
def stMisseed : TrackerState :=
  ⟨[{ kfNew with statePost := vec4 50 50 0 0 }, kfNew], [], 0⟩

/-- Claim C2: the creation step writes the unmatched observation's seed at
index `i + diff - skipped = 1 + 1 - 1 = 1` — overwriting the state of
PRE-EXISTING slot 1 with (10,10,0,0) — while the freshly appended slot 2
keeps the all-zero constructor state instead of the promised seed.  (The
in-code comment of line 151, "initialize new kalman filters with data of
unmatched clusters", states the intended behaviour this evaluation
contradicts.) -/
theorem create_branch_misseeds_eval :
    ((KFTrack stMisseed [0, 0, 0, 10, 10, 0, 20, 20, 0]).map
      (fun s => (s.objID, s.k_filters_.map (fun f => stateTuple f.statePre)))) =
      some ([2, 0], [(50, 50, 0, 0), (10, 10, 0, 0), (0, 0, 0, 0)]) ∧
    (10, 10, 0, 0) ≠ stateTuple kfNew.statePre := by
  constructor
  · with_unfolding_all decide
  · with_unfolding_all decide

/-- One live filter whose prediction is (3, 5, 0); the single observation is
(0, 5, 0), which matches it. -/
def stSkip : TrackerState := ⟨[{ kfNew with statePost := vec4 3 5 0 0 }], [], 0⟩

/-- Claim C5, counterexample: the matched measurement (0, 5) differs from the
sentinel position (0, 0), so by the claim the slot must be corrected; but the
code's guard `!(meas[0] == 0.0f || meas[1] == 0.0f)` skips it because the x
coordinate alone is zero, and the filter ends the cycle still in its
predicted state (3, 5, 0, 0).  Correction would have moved the state to
(30/11, 5, 0, 0), so the skip is observable. -/
theorem correct_skip_nonorigin_cex :
    ((KFTrack stSkip [0, 5, 0]).map
      (fun s => s.k_filters_.map (fun f => stateTuple f.statePost))) =
      some [(3, 5, 0, 0)] ∧
    ((0 : ℚ), (5 : ℚ)) ≠ ((0 : ℚ), (0 : ℚ)) ∧
    (kfCorrect (kfPredict { kfNew with statePost := vec4 3 5 0 0 }) (vec2 0 5)).map
      (fun f => stateTuple f.statePost) ≠ some (3, 5, 0, 0) := by
  refine ⟨?_, by norm_num, ?_⟩
  · with_unfolding_all decide
  · with_unfolding_all decide

/-! ### Claim C10: what the association distance actually measures -/

/-- Claim C10: the predicted point handed to the associator takes its z
coordinate from state component 2 (the x-velocity in the `[x, y, v_x, v_y]`
convention), every centroid produced by the clustering stage has z = 0, and
hence the (squared) association distance is dx² + dy² + vx² — not the planar
distance between the 2D positions, as the concrete instance with vx = 3 and
coincident positions (distance² = 9 ≠ 0) shows. -/
theorem association_distance_uses_vx :
    (∀ pts, (computeCentroid pts).z = 0) ∧
    (∀ f, (predictedPointOf f).z = f.statePre 2) ∧
    (∀ f pts,
      euclidian_dst_sq (predictedPointOf f) (computeCentroid pts) =
        (f.statePre 0 - (computeCentroid pts).x) * (f.statePre 0 - (computeCentroid pts).x) +
        (f.statePre 1 - (computeCentroid pts).y) * (f.statePre 1 - (computeCentroid pts).y) +
        f.statePre 2 * f.statePre 2) ∧
    euclidian_dst_sq (predictedPointOf { kfNew with statePre := vec4 0 0 3 0 })
        (computeCentroid [(0, 0)]) = 9 ∧
    (9 : ℚ) ≠ 0 := by
  refine ⟨fun pts => rfl, fun f => rfl, fun f pts => ?_, ?_, by norm_num⟩
  · show euclidian_dst_sq _ _ = _
    simp only [euclidian_dst_sq, predictedPointOf, computeCentroid]
    ring
  · with_unfolding_all decide

/-! ### Claim C8: the first-frame bootstrap -/

theorem setFilterSeed_some {filters fs : List KalmanFilter} {idx : Nat} {p : ℚ × ℚ}
    (h : setFilterSeed filters idx p = some fs) :
    ∃ hlt : idx < filters.length,
      fs = filters.set idx { filters.get ⟨idx, hlt⟩ with statePre := vec4 p.1 p.2 0 0 } := by
  unfold setFilterSeed at h
  split at h
  · exact ⟨by assumption, by cases h; rfl⟩
  · cases h

theorem seedFirstLoop_success :
    ∀ (centres : List Point) (filters : List KalmanFilter) (i : Nat),
      i + centres.length ≤ filters.length →
      ∃ fs, seedFirstLoop filters centres i = some fs := by
  intro centres
  induction centres with
  | nil => intro filters i _; exact ⟨filters, rfl⟩
  | cons c rest ih =>
    intro filters i hle
    have hlt : i < filters.length := by simp at hle; omega
    have hset : setFilterSeed filters i (c.x, c.y) =
        some (filters.set i { filters.get ⟨i, hlt⟩ with statePre := vec4 c.x c.y 0 0 }) := by
      unfold setFilterSeed
      rw [dif_pos hlt]
    have hle2 : i + 1 + rest.length ≤ (filters.set i
        { filters.get ⟨i, hlt⟩ with statePre := vec4 c.x c.y 0 0 }).length := by
      simp [List.length_set]
      simp at hle
      omega
    obtain ⟨fs, hfs⟩ := ih _ (i + 1) hle2
    exact ⟨fs, by unfold seedFirstLoop; rw [hset]; exact hfs⟩

theorem seedFirstLoop_spec :
    ∀ (centres : List Point) (filters fs : List KalmanFilter) (i : Nat),
      seedFirstLoop filters centres i = some fs →
      fs.length = filters.length ∧
      (∀ k, k < i → fs[k]? = filters[k]?) ∧
      (∀ d (hd : d < centres.length), ∃ f, filters[i + d]? = some f ∧
        fs[i + d]? = some { f with
          statePre := vec4 (centres.get ⟨d, hd⟩).x (centres.get ⟨d, hd⟩).y 0 0 }) := by
  intro centres
  induction centres with
  | nil =>
    intro filters fs i h
    cases h
    exact ⟨rfl, fun k _ => rfl, fun d hd => absurd hd (by simp)⟩
  | cons c rest ih =>
    intro filters fs i h
    unfold seedFirstLoop at h
    cases hset : setFilterSeed filters i (c.x, c.y) with
    | none => rw [hset] at h; cases h
    | some fs1 =>
      rw [hset] at h
      obtain ⟨hlt, hfs1⟩ := setFilterSeed_some hset
      obtain ⟨ihlen, ihtouch, ihspec⟩ := ih fs1 fs (i + 1) h
      have hlen1 : fs1.length = filters.length := by rw [hfs1]; exact List.length_set ..
      refine ⟨ihlen.trans hlen1, ?_, ?_⟩
      · intro k hk
        rw [ihtouch k (by omega), hfs1]
        exact getElem?_set_other _ _ _ _ (by omega)
      · intro d hd
        cases d with
        | zero =>
          refine ⟨filters.get ⟨i, hlt⟩, ?_, ?_⟩
          · simp only [Nat.add_zero]
            rw [List.getElem?_eq_getElem hlt]
            rfl
          · rw [Nat.add_zero, ihtouch i (by omega), hfs1]
            exact getElem?_set_self _ _ _ hlt
        | succ d2 =>
          have hd2 : d2 < rest.length := by simpa using hd
          obtain ⟨f, hf1, hf2⟩ := ihspec d2 hd2
          refine ⟨f, ?_, ?_⟩
          · rw [show i + (d2 + 1) = i + 1 + d2 by omega, ← hf1, hfs1]
            exact (getElem?_set_other filters i (i + 1 + d2) _ (by omega)).symm
          · rw [show i + (d2 + 1) = i + 1 + d2 by omega]
            exact hf2

/-- Claim C8: on the very first frame (`first_frame_` true, empty bank) the
predict/associate/prune path of `KFTrack` is skipped entirely and exactly one
filter is created per observation, seeded at that observation's (x, y) with
zero velocity; `objID` and the staleness counter are untouched and the flag
drops to false. -/
theorem first_frame_bootstrap (st : TrackerState) (centres : List Point)
    (h : st.k_filters_ = []) :
    ∃ fs, processFrame st true centres = some ({ st with k_filters_ := fs }, false) ∧
      fs.length = centres.length ∧
      ∀ d (hd : d < centres.length), fs[d]? =
        some { kfNew with
          statePre := vec4 (centres.get ⟨d, hd⟩).x (centres.get ⟨d, hd⟩).y 0 0 } := by
  have hinit : _init_KFilters st.k_filters_ centres.length =
      List.replicate centres.length kfNew := by
    rw [_init_KFilters, h, List.nil_append]
  obtain ⟨fs, hfs⟩ := seedFirstLoop_success centres
    (List.replicate centres.length kfNew) 0 (by simp)
  obtain ⟨hlen, _, hspec⟩ := seedFirstLoop_spec centres _ fs 0 hfs
  refine ⟨fs, ?_, by simpa using hlen, ?_⟩
  · show processFrame st true centres = _
    unfold processFrame
    rw [if_pos rfl, hinit, hfs]
  · intro d hd
    obtain ⟨f, hf1, hf2⟩ := hspec d hd
    have : f = kfNew := by
      rw [Nat.zero_add] at hf1
      rw [getElem?_replicate_of_lt hd] at hf1
      exact ((Option.some.injEq _ _).mp hf1).symm
    rw [Nat.zero_add] at hf2
    rw [hf2, this]

/-- Claim C8, witness: the spec's own example.  A first frame with
observations [(1,0,0), (5,5,0)] yields exactly 2 tracks seeded at (1,0) and
(5,5) with zero velocities, and the bootstrap theorem applies to it. -/
theorem first_frame_bootstrap_witness :
    (processFrame ⟨[], [], 0⟩ true [⟨1, 0, 0⟩, ⟨5, 5, 0⟩]).map
      (fun r => (r.2, r.1.objID, r.1.kf_prune_ctr_)) = some (false, [], 0) ∧
    (processFrame ⟨[], [], 0⟩ true [⟨1, 0, 0⟩, ⟨5, 5, 0⟩]).map
      (fun r => r.1.k_filters_.map (fun f => stateTuple f.statePre)) =
      some [(1, 0, 0, 0), (5, 5, 0, 0)] ∧
    (∃ fs, processFrame ⟨[], [], 0⟩ true [⟨1, 0, 0⟩, ⟨5, 5, 0⟩] =
        some ({ TrackerState.mk [] [] 0 with k_filters_ := fs }, false) ∧
      fs.length = ([⟨1, 0, 0⟩, ⟨5, 5, 0⟩] : List Point).length ∧
      ∀ d (hd : d < ([⟨1, 0, 0⟩, ⟨5, 5, 0⟩] : List Point).length), fs[d]? =
        some { kfNew with
          statePre := vec4 (([⟨1, 0, 0⟩, ⟨5, 5, 0⟩] : List Point).get ⟨d, hd⟩).x
            (([⟨1, 0, 0⟩, ⟨5, 5, 0⟩] : List Point).get ⟨d, hd⟩).y 0 0 }) :=
  ⟨by with_unfolding_all decide, by with_unfolding_all decide,
    first_frame_bootstrap ⟨[], [], 0⟩ _ rfl⟩

/-! ### Claim C1: lengths of the bank and the assignment after a growth cycle -/

theorem assocRecord_fst_length {vec : List Int} {used : List Bool} {ij : Int × Int}
    {vu : List Int × List Bool} (h : assocRecord vec used ij = some vu) :
    vu.1.length = vec.length := by
  unfold assocRecord at h
  split at h
  · cases hv : setEntryI vec ij.1 ij.2 with
    | none => rw [hv] at h; cases h
    | some v =>
      rw [hv] at h
      cases hu : setEntryI used ij.2 true with
      | none => rw [hu] at h; cases h
      | some u =>
        rw [hu] at h
        cases h
        obtain ⟨_, _, hv2⟩ := setEntryI_some hv
        rw [hv2]
        exact List.length_set ..
  · cases h; rfl

theorem assocLoop_succ_inv {n : Nat} {distMat : List (List DistVal)} {vec : List Int}
    {used : List Bool} {vu : List Int × List Bool}
    (h : assocLoop (n + 1) distMat vec used = some vu) :
    ∃ ij vu1 m2, findMinIDX distMat = some ij ∧ assocRecord vec used ij = some vu1 ∧
      assocErase distMat ij = some m2 ∧ assocLoop n m2 vu1.1 vu1.2 = some vu := by
  unfold assocLoop at h
  cases hmin : findMinIDX distMat with
  | none => simp [hmin] at h
  | some ij =>
    simp only [hmin] at h
    cases hrec : assocRecord vec used ij with
    | none => simp [hrec] at h
    | some vu1 =>
      simp only [hrec] at h
      cases herase : assocErase distMat ij with
      | none => simp [herase] at h
      | some m2 =>
        simp only [herase] at h
        exact ⟨ij, vu1, m2, rfl, hrec, herase, h⟩

theorem assocLoop_fst_length :
    ∀ (fuel : Nat) (distMat : List (List DistVal)) (vec : List Int) (used : List Bool)
      (vu : List Int × List Bool), assocLoop fuel distMat vec used = some vu →
      vu.1.length = vec.length := by
  intro fuel
  induction fuel with
  | zero => intro _ vec _ vu h; cases h; rfl
  | succ n ih =>
    intro distMat vec used vu h
    obtain ⟨ij, vu1, m2, _, hrec, _, hloop⟩ := assocLoop_succ_inv h
    exact (ih m2 vu1.1 vu1.2 vu hloop).trans (assocRecord_fst_length hrec)

theorem match_objID_length {kCount : Nat} {pred cCentres : List Point} {used0 : List Bool}
    {vu : List Int × List Bool} (h : match_objID kCount pred cCentres used0 = some vu) :
    vu.1.length = pred.length := by
  unfold match_objID at h
  exact (assocLoop_fst_length _ _ _ _ _ h).trans (List.length_replicate ..)

theorem createSeedLoop_cons_inv {used : List Bool} {diff : Nat}
    {filters fs : List KalmanFilter} {c : Point} {rest : List Point} {i skipped : Nat}
    (h : createSeedLoop used diff filters (c :: rest) i skipped = some fs) :
    ∃ u, used[i]? = some u ∧
      (u = true ∧ createSeedLoop used diff filters rest (i + 1) (skipped + 1) = some fs ∨
       u = false ∧ ∃ fs1, setFilterSeed filters (i + diff - skipped) (c.x, c.y) = some fs1 ∧
         createSeedLoop used diff fs1 rest (i + 1) skipped = some fs) := by
  unfold createSeedLoop at h
  cases hu : used[i]? with
  | none => simp [hu] at h
  | some u =>
    simp only [hu] at h
    cases u with
    | true => exact ⟨true, rfl, Or.inl ⟨rfl, by simpa using h⟩⟩
    | false =>
      simp only [Bool.false_eq_true, if_false] at h
      cases hset : setFilterSeed filters (i + diff - skipped) (c.x, c.y) with
      | none => simp [hset] at h
      | some fs1 =>
        simp only [hset] at h
        exact ⟨false, rfl, Or.inr ⟨rfl, fs1, rfl, h⟩⟩

theorem createSeedLoop_length :
    ∀ (centres : List Point) (used : List Bool) (diff : Nat)
      (filters fs : List KalmanFilter) (i skipped : Nat),
      createSeedLoop used diff filters centres i skipped = some fs →
      fs.length = filters.length := by
  intro centres
  induction centres with
  | nil => intro _ _ _ _ _ _ h; cases h; rfl
  | cons c rest ih =>
    intro used diff filters fs i skipped h
    obtain ⟨u, _, ⟨_, hrec⟩ | ⟨_, fs1, hset, hrec⟩⟩ := createSeedLoop_cons_inv h
    · exact ih used diff filters fs (i + 1) (skipped + 1) hrec
    · obtain ⟨_, hfs1⟩ := setFilterSeed_some hset
      rw [ih used diff fs1 fs (i + 1) skipped hrec, hfs1]
      exact List.length_set ..

theorem correctLoop_cons_inv {cCentres : List Point} {filters fs : List KalmanFilter}
    {j : Int} {rest : List Int} {i : Nat}
    (h : correctLoop cCentres filters (j :: rest) i = some fs) :
    ∃ c, getEntryI cCentres j = some c ∧
      ((c.x = 0 ∨ c.y = 0) ∧ correctLoop cCentres filters rest (i + 1) = some fs ∨
       ¬(c.x = 0 ∨ c.y = 0) ∧ ∃ f fc, filters[i]? = some f ∧
         kfCorrect f (vec2 c.x c.y) = some fc ∧
         correctLoop cCentres (filters.set i fc) rest (i + 1) = some fs) := by
  unfold correctLoop at h
  cases hc : getEntryI cCentres j with
  | none => simp [hc] at h
  | some c =>
    simp only [hc] at h
    by_cases hz : c.x = 0 ∨ c.y = 0
    · rw [if_pos hz] at h
      exact ⟨c, rfl, Or.inl ⟨hz, h⟩⟩
    · rw [if_neg hz] at h
      cases hf : filters[i]? with
      | none => simp [hf] at h
      | some f =>
        simp only [hf] at h
        cases hcor : kfCorrect f (vec2 c.x c.y) with
        | none => simp [hcor] at h
        | some fc =>
          simp only [hcor] at h
          exact ⟨c, rfl, Or.inr ⟨hz, f, fc, rfl, hcor, h⟩⟩

theorem correctLoop_length {cCentres : List Point} :
    ∀ (objids : List Int) (filters fs : List KalmanFilter) (i : Nat),
      correctLoop cCentres filters objids i = some fs →
      fs.length = filters.length := by
  intro objids
  induction objids with
  | nil => intro _ _ _ h; cases h; rfl
  | cons j rest ih =>
    intro filters fs i h
    obtain ⟨c, _, ⟨_, hrec⟩ | ⟨_, f, fc, _, _, hrec⟩⟩ := correctLoop_cons_inv h
    · exact ih filters fs (i + 1) hrec
    · rw [ih (filters.set i fc) fs (i + 1) hrec]
      exact List.length_set ..

/-- Claim C1, amended: when a `KFTrack` cycle in which the observations
outnumber the live tracks completes, the filter bank has grown to one slot
per observation, but the assignment `objID` is NOT extended for the new
slots: it keeps the pre-frame track count as its length, so
`len(k_filters_) = len(objID)` fails for that cycle (it is re-established
only when the next frame recomputes `objID`). -/
theorem option_elim_of_forall {α : Type} {o : Option α} {P : α → Prop}
    (h : ∀ s, o = some s → P s) : o.elim True P := by
  cases o with
  | none => trivial
  | some s => exact h s rfl

theorem kftrack_growth_lengths (st : TrackerState) (ccs : List ℚ) (centres : List Point)
    (hC : chunk3 ccs = some centres) (hT : st.k_filters_.length < centres.length) :
    (KFTrack st ccs).elim True (fun s =>
      s.k_filters_.length = centres.length ∧ s.objID.length = st.k_filters_.length) := by
  apply option_elim_of_forall
  intro s hKs
  simp only [KFTrack, hC, List.map_map, List.length_map] at hKs
  cases hm : match_objID st.k_filters_.length
      (List.map (predictedPointOf ∘ kfPredict) st.k_filters_) centres
      (List.replicate centres.length false) with
  | none => simp [hm] at hKs
  | some vu =>
    simp only [hm] at hKs
    have hlen1 : vu.1.length = st.k_filters_.length := by
      have h2 := match_objID_length hm
      simpa using h2
    rw [if_pos (show vu.1.length < centres.length by rw [hlen1]; exact hT)] at hKs
    cases hs : createSeedLoop vu.2 (centres.length - vu.1.length)
        (_init_KFilters (List.map kfPredict st.k_filters_) (centres.length - vu.1.length))
        centres 0 0 with
    | none => simp [hs] at hKs
    | some fs =>
      simp only [hs] at hKs
      cases hcl : correctLoop centres fs vu.1 0 with
      | none => simp [hcl] at hKs
      | some f3 =>
        simp only [hcl, Option.some.injEq] at hKs
        have h2 := correctLoop_length _ _ _ _ hcl
        have h3 := createSeedLoop_length _ _ _ _ _ _ _ hs
        have h4 : (_init_KFilters (List.map kfPredict st.k_filters_)
            (centres.length - vu.1.length)).length = centres.length := by
          simp only [_init_KFilters, List.length_append, List.length_map,
            List.length_replicate, hlen1]
          omega
        rw [← hKs]
        exact ⟨(h2.trans h3).trans h4, hlen1⟩

/-- Claim C1, witness: the growth scenario with one track and two
observations satisfies the hypotheses of `kftrack_growth_lengths`, whose
conclusion there says: 2 filters, `objID` of length 1. -/
theorem kftrack_growth_lengths_witness :
    chunk3 [10, 10, 0, 20, 20, 0] = some [⟨10, 10, 0⟩, ⟨20, 20, 0⟩] ∧
    stGrowth.k_filters_.length < ([⟨10, 10, 0⟩, ⟨20, 20, 0⟩] : List Point).length ∧
    (KFTrack stGrowth [10, 10, 0, 20, 20, 0]).elim True (fun s =>
      s.k_filters_.length = ([⟨10, 10, 0⟩, ⟨20, 20, 0⟩] : List Point).length ∧
      s.objID.length = stGrowth.k_filters_.length) :=
  ⟨by with_unfolding_all decide, by with_unfolding_all decide,
    kftrack_growth_lengths stGrowth _ _ (by with_unfolding_all decide)
      (by with_unfolding_all decide)⟩

/-! ### Claim C5: what the CORRECT phase actually does per slot -/

theorem correctLoop_untouched {cCentres : List Point} :
    ∀ (objids : List Int) (filters fs : List KalmanFilter) (i : Nat),
      correctLoop cCentres filters objids i = some fs →
      ∀ k, k < i ∨ i + objids.length ≤ k → fs[k]? = filters[k]? := by
  intro objids
  induction objids with
  | nil => intro _ _ _ h k _; cases h; rfl
  | cons j rest ih =>
    intro filters fs i h k hk
    simp only [List.length_cons] at hk
    obtain ⟨c, _, ⟨_, hrec⟩ | ⟨_, f, fc, hf, _, hrec⟩⟩ := correctLoop_cons_inv h
    · exact ih filters fs (i + 1) hrec k (by omega)
    · rw [ih (filters.set i fc) fs (i + 1) hrec k (by omega)]
      exact getElem?_set_other filters i k fc (by omega)

theorem correctLoop_spec {cCentres : List Point} :
    ∀ (objids : List Int) (filters fs : List KalmanFilter) (i : Nat),
      correctLoop cCentres filters objids i = some fs →
      ∀ d (hd : d < objids.length), ∃ j c, objids[d]? = some j ∧
        getEntryI cCentres j = some c ∧
        (((c.x = 0 ∨ c.y = 0) ∧ fs[i + d]? = filters[i + d]?) ∨
         (¬(c.x = 0 ∨ c.y = 0) ∧ ∃ f fc, filters[i + d]? = some f ∧
           kfCorrect f (vec2 c.x c.y) = some fc ∧ fs[i + d]? = some fc)) := by
  intro objids
  induction objids with
  | nil => intro _ _ _ _ d hd; exact absurd hd (by simp)
  | cons j rest ih =>
    intro filters fs i h d hd
    obtain ⟨c, hc, ⟨hz, hrec⟩ | ⟨hz, f, fc, hf, hcor, hrec⟩⟩ := correctLoop_cons_inv h
    · cases d with
      | zero =>
        refine ⟨j, c, by simp, hc, Or.inl ⟨hz, ?_⟩⟩
        exact correctLoop_untouched rest filters fs (i + 1) hrec (i + 0) (by omega)
      | succ d2 =>
        have hd2 : d2 < rest.length := by simpa using hd
        obtain ⟨j2, c2, hj2, hc2, hcase⟩ := ih filters fs (i + 1) hrec d2 hd2
        refine ⟨j2, c2, by simpa using hj2, hc2, ?_⟩
        rw [show i + (d2 + 1) = i + 1 + d2 by omega]
        exact hcase
    · have hflt : i < filters.length := by
        by_contra hge
        rw [List.getElem?_eq_none (by omega)] at hf
        cases hf
      cases d with
      | zero =>
        refine ⟨j, c, by simp, hc, Or.inr ⟨hz, f, fc, by simpa using hf, hcor, ?_⟩⟩
        rw [correctLoop_untouched rest (filters.set i fc) fs (i + 1) hrec (i + 0) (by omega)]
        simpa using getElem?_set_self filters i fc hflt
      | succ d2 =>
        have hd2 : d2 < rest.length := by simpa using hd
        obtain ⟨j2, c2, hj2, hc2, hcase⟩ := ih (filters.set i fc) fs (i + 1) hrec d2 hd2
        refine ⟨j2, c2, by simpa using hj2, hc2, ?_⟩
        rw [show i + (d2 + 1) = i + 1 + d2 by omega]
        rcases hcase with ⟨hz2, heq⟩ | ⟨hz2, f2, fc2, hf2, hcor2, heq⟩
        · exact Or.inl ⟨hz2, heq.trans (getElem?_set_other filters i (i + 1 + d2) fc (by omega))⟩
        · exact Or.inr ⟨hz2, f2, fc2,
            (getElem?_set_other filters i (i + 1 + d2) fc (by omega)) ▸ hf2, hcor2, heq⟩

theorem correctLoop_sentinel {cCentres : List Point} :
    ∀ (objids : List Int) (filters : List KalmanFilter) (i : Nat),
      (-1 : Int) ∈ objids → correctLoop cCentres filters objids i = none := by
  intro objids
  induction objids with
  | nil => intro _ _ h; simp at h
  | cons j rest ih =>
    intro filters i hmem
    rcases List.mem_cons.mp hmem with hj | hj
    · show correctLoop cCentres filters (j :: rest) i = none
      unfold correctLoop
      have : getEntryI cCentres j = none := by
        unfold getEntryI
        rw [if_neg (by omega)]
      rw [this]
    · show correctLoop cCentres filters (j :: rest) i = none
      unfold correctLoop
      split
      · rfl
      · split
        · exact ih filters (i + 1) hj
        · split
          · rfl
          · split
            · rfl
            · exact ih _ (i + 1) hj

/-- Claim C5, amended: in the CORRECT phase, slot `i` is corrected exactly
when its matched measurement has BOTH coordinates nonzero — a measurement
with `x = 0` or `y = 0` (not only the origin (0,0)) is silently skipped,
leaving the filter exactly as the predict step left it.  Moreover a slot
whose assignment is the sentinel `-1` is not simply left uncorrected: the
phase reads `cCentres[-1]` first, an out-of-range access that aborts the
cycle (modelled: the correct loop fails). -/
theorem correct_phase_characterization :
    (∀ (cCentres : List Point) (objids : List Int) (filters fs : List KalmanFilter),
      correctLoop cCentres filters objids 0 = some fs →
      ∀ d (hd : d < objids.length), ∃ j c, objids[d]? = some j ∧
        getEntryI cCentres j = some c ∧
        (((c.x = 0 ∨ c.y = 0) ∧ fs[d]? = filters[d]?) ∨
         (¬(c.x = 0 ∨ c.y = 0) ∧ ∃ f fc, filters[d]? = some f ∧
           kfCorrect f (vec2 c.x c.y) = some fc ∧ fs[d]? = some fc))) ∧
    (∀ (cCentres : List Point) (objids : List Int) (filters : List KalmanFilter),
      (-1 : Int) ∈ objids → correctLoop cCentres filters objids 0 = none) := by
  constructor
  · intro cCentres objids filters fs h d hd
    have hspec := correctLoop_spec objids filters fs 0 h d hd
    simpa using hspec
  · intro cCentres objids filters hmem
    exact correctLoop_sentinel objids filters 0 hmem

/-- Claim C5, witness: slot 0 matched to measurement (0, 5) is skipped (the
filter list is returned unchanged), and an assignment list containing the
sentinel `-1` makes the correct phase fail. -/
theorem correct_phase_characterization_witness :
    correctLoop [⟨0, 5, 0⟩] [kfNew] [0] 0 = some [kfNew] ∧
    (∃ j c, ([0] : List Int)[0]? = some j ∧ getEntryI [(⟨0, 5, 0⟩ : Point)] j = some c ∧
      (((c.x = 0 ∨ c.y = 0) ∧ ([kfNew] : List KalmanFilter)[0]? = ([kfNew] : List KalmanFilter)[0]?) ∨
       (¬(c.x = 0 ∨ c.y = 0) ∧ ∃ f fc, ([kfNew] : List KalmanFilter)[0]? = some f ∧
         kfCorrect f (vec2 c.x c.y) = some fc ∧ ([kfNew] : List KalmanFilter)[0]? = some fc))) ∧
    correctLoop [⟨0, 5, 0⟩] [kfNew] [-1] 0 = none :=
  ⟨by with_unfolding_all decide,
    correct_phase_characterization.1 [⟨0, 5, 0⟩] [0] [kfNew] [kfNew]
      (by with_unfolding_all decide) 0 (by decide),
    correct_phase_characterization.2 [⟨0, 5, 0⟩] [-1] [kfNew] (by decide)⟩

/-! ### Claim C4: the assignment is one-to-one

Key facts: a successful scan only ever records a cell whose value is strictly
below the sentinel, and after a selection the whole selected column reads as
the sentinel in every row, so it can never be recorded again. -/

theorem replicate_getElem?_val {α : Type} {a v : α} :
    ∀ {n i : Nat}, (List.replicate n a)[i]? = some v → v = a := by
  intro n
  induction n with
  | zero => intro i h; simp at h
  | succ m ih =>
    intro i h
    cases i with
    | zero =>
      simp only [List.replicate, List.getElem?_cons_zero, Option.some.injEq] at h
      exact h.symm
    | succ k =>
      simp only [List.replicate, List.getElem?_cons_succ] at h
      exact ih h

/-- The accumulator of the `findMinIDX` scan is either untouched, or records
a genuinely read matrix entry that is strictly below the sentinel. -/
def goodAcc (distMat : List (List DistVal)) (acc : (Int × Int) × DistVal) : Prop :=
  (acc.1 = (-1, -1) ∧ acc.2 = ⊤) ∨
  (∃ a b row v, acc.1 = (Int.ofNat a, Int.ofNat b) ∧ distMat[a]? = some row ∧
    row[b]? = some v ∧ acc.2 = v ∧ v ≠ ⊤)

theorem scanCells_good {distMat : List (List DistVal)} :
    ∀ (cells : List (Nat × Nat)) (acc res : (Int × Int) × DistVal),
      scanCells distMat cells acc = some res → goodAcc distMat acc →
      goodAcc distMat res := by
  intro cells
  induction cells with
  | nil => intro acc res h hg; cases h; exact hg
  | cons pc rest ih =>
    intro acc res h hg
    obtain ⟨pp, c⟩ := pc
    unfold scanCells at h
    cases hrow : distMat[pp]? with
    | none => simp [hrow] at h
    | some row =>
      simp only [hrow] at h
      cases hv : row[c]? with
      | none => simp [hv] at h
      | some v =>
        simp only [hv] at h
        refine ih _ res h ?_
        by_cases hlt : v < acc.2
        · rw [if_pos hlt]
          exact Or.inr ⟨pp, c, row, v, rfl, hrow, hv, rfl,
            fun hveq => absurd (hveq ▸ hlt) not_top_lt⟩
        · rw [if_neg hlt]
          exact hg

theorem findMinIDX_found {distMat : List (List DistVal)} {ij : Int × Int}
    (h : findMinIDX distMat = some ij) (hne : ij.1 ≠ -1) :
    ∃ a b row v, ij = (Int.ofNat a, Int.ofNat b) ∧ distMat[a]? = some row ∧
      row[b]? = some v ∧ v ≠ ⊤ := by
  cases distMat with
  | nil =>
    unfold findMinIDX at h
    cases h
    exact absurd rfl hne
  | cons r0 tl =>
    have hcons : findMinIDX (r0 :: tl) =
        match scanCells (r0 :: tl) (allCells (r0 :: tl).length r0.length)
            ((-1, -1), ⊤) with
        | none => none
        | some acc => some acc.1 := rfl
    rw [hcons] at h
    split at h
    · cases h
    · rename_i acc hscan
      cases h
      have hg := scanCells_good _ _ _ hscan (Or.inl ⟨rfl, rfl⟩)
      rcases hg with ⟨h1, _⟩ | ⟨a, b, row, v, hacc, hrow, hv, _, hvne⟩
      · rw [h1] at hne
        exact absurd rfl hne
      · exact ⟨a, b, row, v, hacc, hrow, hv, hvne⟩

/-- Column `j` of the matrix reads as the sentinel wherever it is in range. -/
def colErased (distMat : List (List DistVal)) (j : Int) : Prop :=
  ∀ row ∈ distMat, ∀ v, row[j.toNat]? = some v → v = ⊤

/-- Every real (non-sentinel) entry of `vec` names an already-erased column. -/
def assocInv (distMat : List (List DistVal)) (vec : List Int) : Prop :=
  ∀ j ∈ vec, j ≠ -1 → 0 ≤ j ∧ colErased distMat j

/-- Distinct slots never share a real observation index. -/
def almostInj (vec : List Int) : Prop :=
  ∀ (i1 i2 : Nat) (j : Int), vec[i1]? = some j → vec[i2]? = some j → i1 ≠ i2 → j = -1

theorem eraseCol_spec :
    ∀ (distMat m2 : List (List DistVal)) (j : Int), eraseCol distMat j = some m2 →
      ∀ row2 ∈ m2, ∃ row, row ∈ distMat ∧ 0 ≤ j ∧ j.toNat < row.length ∧
        row2 = row.set j.toNat ⊤ := by
  intro distMat
  induction distMat with
  | nil =>
    intro m2 j h row2 hmem
    cases h
    simp at hmem
  | cons r rs ih =>
    intro m2 j h row2 hmem
    unfold eraseCol at h
    cases hset : setEntryI r j (⊤ : DistVal) with
    | none => simp [hset] at h
    | some r2 =>
      simp only [hset] at h
      cases hrest : eraseCol rs j with
      | none => simp [hrest] at h
      | some rs2 =>
        simp only [hrest] at h
        cases h
        rcases List.mem_cons.mp hmem with h1 | h1
        · obtain ⟨h0, hb, he⟩ := setEntryI_some hset
          exact ⟨r, List.mem_cons_self _ _, h0, hb, by rw [h1, he]⟩
        · obtain ⟨row, hrm, h0, hb, he⟩ := ih rs2 j hrest row2 h1
          exact ⟨row, List.mem_cons_of_mem _ hrm, h0, hb, he⟩

theorem assocErase_spec :
    ∀ (distMat m2 : List (List DistVal)) (ij : Int × Int), assocErase distMat ij = some m2 →
      0 ≤ ij.1 ∧ ij.1.toNat < distMat.length ∧ 0 ≤ ij.2 ∧ colErased m2 ij.2 ∧
        (∀ j2, colErased distMat j2 → colErased m2 j2) := by
  intro distMat m2 ij h
  unfold assocErase at h
  split at h
  · cases h
  · rename_i m1 hrow
    obtain ⟨h0, hb, hm1⟩ := setEntryI_some hrow
    have hspec := eraseCol_spec m1 m2 ij.2 h
    have h02 : 0 ≤ ij.2 := by
      have hlen : m1.length = distMat.length := by rw [hm1]; exact List.length_set ..
      cases hm1c : m1 with
      | nil => rw [hm1c] at hlen; simp at hlen; omega
      | cons rr rrs =>
        rw [hm1c] at h
        unfold eraseCol at h
        split at h
        · cases h
        · rename_i r2 hset2
          exact (setEntryI_some hset2).1
    refine ⟨h0, hb, h02, ?_, ?_⟩
    · intro row2 hmem v hv
      obtain ⟨row, hrm, _, hjb, he⟩ := hspec row2 hmem
      rw [he, getElem?_set_self row ij.2.toNat ⊤ hjb] at hv
      exact ((Option.some.injEq _ _).mp hv).symm
    · intro j2 hcol row2 hmem v hv
      obtain ⟨row, hrm, _, hjb, he⟩ := hspec row2 hmem
      by_cases hjj : j2.toNat = ij.2.toNat
      · rw [he, hjj, getElem?_set_self row ij.2.toNat ⊤ hjb] at hv
        exact ((Option.some.injEq _ _).mp hv).symm
      · rw [he, getElem?_set_other row ij.2.toNat j2.toNat ⊤ (fun hx => hjj hx.symm)] at hv
        rcases mem_of_mem_set distMat ij.1.toNat (List.replicate 6 (⊤ : DistVal)) row
          (hm1 ▸ hrm) with hrd | hrr
        · exact hcol row hrd v hv
        · rw [hrr] at hv
          exact replicate_getElem?_val hv

theorem assocRecord_inv {vec : List Int} {used : List Bool} {ij : Int × Int}
    {vu : List Int × List Bool} (hne : ij.1 ≠ -1)
    (h : assocRecord vec used ij = some vu) :
    0 ≤ ij.1 ∧ ij.1.toNat < vec.length ∧ vu.1 = vec.set ij.1.toNat ij.2 := by
  unfold assocRecord at h
  rw [if_pos hne] at h
  cases hv : setEntryI vec ij.1 ij.2 with
  | none =>
    cases hu : setEntryI used ij.2 true with
    | none => simp [hv, hu] at h
    | some u => simp [hv, hu] at h
  | some v =>
    cases hu : setEntryI used ij.2 true with
    | none => simp [hv, hu] at h
    | some u =>
      simp only [hv, hu] at h
      obtain ⟨h0, hb, he⟩ := setEntryI_some hv
      cases h
      exact ⟨h0, hb, he⟩

theorem assocLoop_preserves :
    ∀ (fuel : Nat) (distMat : List (List DistVal)) (vec : List Int) (used : List Bool)
      (vu : List Int × List Bool), assocLoop fuel distMat vec used = some vu →
      assocInv distMat vec → almostInj vec → almostInj vu.1 := by
  intro fuel
  induction fuel with
  | zero => intro _ vec _ vu h _ hinj; cases h; exact hinj
  | succ n ih =>
    intro distMat vec used vu h hinv hinj
    obtain ⟨ij, vu1, m2, hmin, hrec, herase, hloop⟩ := assocLoop_succ_inv h
    obtain ⟨h01, hb1, h02, hcolnew, hpres⟩ := assocErase_spec distMat m2 ij herase
    have hne : ij.1 ≠ -1 := by omega
    obtain ⟨_, hbv, hvu1⟩ := assocRecord_inv hne hrec
    obtain ⟨a, b, row, v, hij, hrow, hv, hvne⟩ := findMinIDX_found hmin hne
    have hij2 : ij.2 = Int.ofNat b := by rw [hij]
    have hfresh : ∀ k : Nat, vec[k]? ≠ some ij.2 := by
      intro k hk
      have hmem : ij.2 ∈ vec := mem_of_getElem? vec k ij.2 hk
      obtain ⟨_, hcol⟩ := hinv ij.2 hmem (by omega)
      have hrmem : row ∈ distMat := mem_of_getElem? distMat a row hrow
      refine hvne (hcol row hrmem v ?_)
      rw [hij2]
      exact hv
    have hinv2 : assocInv m2 vu1.1 := by
      rw [hvu1]
      intro j2 hjmem hjne
      rcases mem_of_mem_set vec ij.1.toNat ij.2 j2 hjmem with hold | hnew
      · obtain ⟨hj0, hjcol⟩ := hinv j2 hold hjne
        exact ⟨hj0, hpres j2 hjcol⟩
      · rw [hnew]
        exact ⟨h02, hcolnew⟩
    have hinj2 : almostInj vu1.1 := by
      rw [hvu1]
      intro i1 i2 j2 hg1 hg2 hne12
      by_cases he1 : i1 = ij.1.toNat
      · rw [he1, getElem?_set_self vec ij.1.toNat ij.2 hbv] at hg1
        have hj2 : j2 = ij.2 := ((Option.some.injEq _ _).mp hg1).symm
        rw [getElem?_set_other vec ij.1.toNat i2 ij.2 (fun hx => (by omega : i2 ≠ ij.1.toNat) hx.symm)] at hg2
        exact absurd (hj2 ▸ hg2) (hfresh i2)
      · by_cases he2 : i2 = ij.1.toNat
        · rw [he2, getElem?_set_self vec ij.1.toNat ij.2 hbv] at hg2
          have hj2 : j2 = ij.2 := ((Option.some.injEq _ _).mp hg2).symm
          rw [getElem?_set_other vec ij.1.toNat i1 ij.2 (fun hx => he1 hx.symm)] at hg1
          exact absurd (hj2 ▸ hg1) (hfresh i1)
        · rw [getElem?_set_other vec ij.1.toNat i1 ij.2 (fun hx => he1 hx.symm)] at hg1
          rw [getElem?_set_other vec ij.1.toNat i2 ij.2 (fun hx => he2 hx.symm)] at hg2
          exact hinj i1 i2 j2 hg1 hg2 hne12
    exact ih m2 vu1.1 vu1.2 vu hloop hinv2 hinj2

/-- Claim C4: in any assignment that `match_objID` returns, each observation
index appears at most once across the track slots: two distinct slots can
only agree on the sentinel `-1`.  (Each slot trivially holds exactly one
entry, so it also receives at most one observation.)  The mechanism is the
erase step: every selected column reads as the sentinel afterwards, and the
scan never records a sentinel entry. -/
theorem match_objID_at_most_once :
    ∀ (kCount : Nat) (pred cCentres : List Point) (used0 : List Bool)
      (vu : List Int × List Bool), match_objID kCount pred cCentres used0 = some vu →
      ∀ (i1 i2 : Nat) (j : Int), vu.1[i1]? = some j → vu.1[i2]? = some j → i1 ≠ i2 →
        j = -1 := by
  intro kCount pred cCentres used0 vu h i1 i2 j hg1 hg2 hne
  unfold match_objID at h
  have hinv : assocInv
      (pred.map fun pp => cCentres.map fun c => ((euclidian_dst_sq pp c : ℚ) : DistVal))
      (List.replicate pred.length (-1)) := by
    intro j2 hjm hjne
    exact absurd (List.eq_of_mem_replicate hjm) hjne
  have hinj : almostInj (List.replicate pred.length (-1)) := by
    intro a1 a2 j2 hh1 _ _
    exact replicate_getElem?_val hh1
  exact assocLoop_preserves kCount _ _ _ vu h hinv hinj i1 i2 j hg1 hg2 hne

/-- Claim C4, witness: with a zero loop bound the assignment stays all
sentinel, and the theorem applied to its duplicate `-1` entries closes. -/
theorem match_objID_at_most_once_witness :
    match_objID 0 [⟨0, 0, 0⟩, ⟨1, 0, 0⟩] [] [] = some ([-1, -1], []) ∧
    ([-1, -1] : List Int)[0]? = some (-1) ∧ ([-1, -1] : List Int)[1]? = some (-1) ∧
    (0 : Nat) ≠ 1 ∧ (-1 : Int) = -1 :=
  ⟨by with_unfolding_all decide, by decide, by decide, by decide,
    match_objID_at_most_once 0 [⟨0, 0, 0⟩, ⟨1, 0, 0⟩] [] [] ([-1, -1], [])
      (by with_unfolding_all decide) 0 1 (-1) (by decide) (by decide) (by decide)⟩

end point_cloud

